import Mathlib

/-!
Verification of the pincho-cli resilient request pipeline: the error
taxonomy (pkg/errors/api_errors.go), the backoff calculator and retry
executor (pkg/client/client.go), and the encryption module
(pkg/crypto/crypto.go), shallowly embedded in Lean.

Go `int` and `time.Duration` are 64-bit two's-complement integers; we model
them as `Int` with explicit wrap-around (`wrap64`) at the operations where
the Go code can overflow.  Durations are in nanoseconds, as in Go.
-/

/-! ## Error taxonomy (pkg/errors/api_errors.go)

Go has five concrete structs implementing the `APIError` interface
(ValidationError, AuthenticationError, RateLimitError, ServerError,
NetworkError) plus arbitrary other `error` values that do not implement it
(modelled by the `plain` constructor).  `NetworkError.Cause` is a nil-able
`error`, modelled by `Option GoError`. -/
inductive GoError where
  | validationError (Message Parameter Code : String) (statusCode : Int)
  | authenticationError (Message : String) (statusCode : Int)
  | rateLimitError (Message : String) (RetryAfter : Int)
  | serverError (Message : String) (statusCode : Int)
  | networkError (Message : String) (Cause : Option GoError)
  | plain (msg : String)

/-- `Error()` rendering of each variant, following each struct's `Error`
method (`fmt.Sprintf` formats transcribed). -/
def renderError : GoError → String
  | .validationError m p c _ =>
      let m1 := if p ≠ "" then m ++ " (parameter: " ++ p ++ ")" else m
      if c ≠ "" then m1 ++ " [" ++ c ++ "]" else m1
  | .authenticationError m _ => m
  | .rateLimitError m ra =>
      if 0 < ra then m ++ " (retry after " ++ toString ra ++ " seconds)" else m
  | .serverError m _ => m
  | .networkError m (some cause) => m ++ ": " ++ renderError cause
  | .networkError m none => m
  | .plain m => m

/-- The `IsRetryable` method of each `APIError` implementor; `none` for
errors that do not implement the `APIError` interface. -/
def apiErrorRetryableFlag : GoError → Option Bool
  | .validationError _ _ _ _ => some false
  | .authenticationError _ _ => some false
  | .rateLimitError _ _ => some true
  | .serverError _ _ => some true
  | .networkError _ _ => some true
  | .plain _ => none

/-- `errors.IsRetryableError`: type-assert to `APIError` and call
`IsRetryable`, else false. -/
def IsRetryableError (e : GoError) : Bool :=
  (apiErrorRetryableFlag e).getD false

/-- The `StatusCode` method of each `APIError` implementor (with the
zero-value defaults used by the Go accessors); `none` for plain errors. -/
def apiErrorStatusCode : GoError → Option Int
  | .validationError _ _ _ sc => some (if sc = 0 then 400 else sc)
  | .authenticationError _ sc => some (if sc = 0 then 401 else sc)
  | .rateLimitError _ _ => some 429
  | .serverError _ sc => some (if sc = 0 then 500 else sc)
  | .networkError _ _ => some 0
  | .plain _ => none

/-! ## String helpers (Go stdlib fragments used by the client) -/

/-- Whether `p` is a prefix of `l` (chars). -/
def listStartsWith : List Char → List Char → Bool
  | [], _ => true
  | _ :: _, [] => false
  | p :: ps, x :: xs => p = x && listStartsWith ps xs

/-- Whether `sub` occurs contiguously inside `l`. -/
def listContainsSub (sub : List Char) : List Char → Bool
  | [] => listStartsWith sub []
  | x :: xs => listStartsWith sub (x :: xs) || listContainsSub sub xs

/-- `strings.Contains(s, sub)`. -/
def strContains (s sub : String) : Bool :=
  listContainsSub sub.data s.data

/-- Digits-with-optional-sign scanner shared by the two `strconv.Atoi`
call patterns.  Returns the sign and the magnitude, or `none` when the
string is empty or holds a non-digit. -/
def parseIntCore (s : String) : Option (Bool × Nat) :=
  let p : Bool × List Char :=
    match s.data with
    | '-' :: rest => (true, rest)
    | '+' :: rest => (false, rest)
    | cs => (false, cs)
  if p.2 = [] then none
  else if p.2.all (fun c => c.isDigit) then
    some (p.1, p.2.foldl (fun acc c => 10 * acc + (c.toNat - 48)) 0)
  else none

/-- `strconv.Atoi` on a 64-bit platform, used under an `err == nil` guard:
`some` exactly when Go returns a nil error (syntax valid and the value fits
in int64). -/
def goAtoi (s : String) : Option Int :=
  match parseIntCore s with
  | none => none
  | some (neg, n) =>
    let v : Int := if neg then -(n : Int) else (n : Int)
    if v < -(2 ^ 63) ∨ (2 ^ 63 - 1) < v then none else some v

/-- `strconv.Atoi` used with the error ignored (`retryAfter, _ = Atoi(..)`):
Go returns 0 on a syntax error and the clamped extreme on a range error. -/
def goAtoiLoose (s : String) : Int :=
  match parseIntCore s with
  | none => 0
  | some (neg, n) =>
    let v : Int := if neg then -(n : Int) else (n : Int)
    if (2 ^ 63 - 1) < v then 2 ^ 63 - 1
    else if v < -(2 ^ 63) then -(2 ^ 63)
    else v

/-! ## 64-bit wrap-around arithmetic -/

/-- Reduce an unbounded integer to the int64 two's-complement value Go
would hold. -/
def wrap64 (x : Int) : Int :=
  let r := x % (2 ^ 64 : Int)
  if r < 2 ^ 63 then r else r - 2 ^ 64

/-- Go `1 << uint(attempt)` at type `time.Duration` (int64): shifts by 64
or more give 0, and `1 << 63` wraps negative. -/
def goShl1 (attempt : Nat) : Int :=
  if attempt < 64 then wrap64 ((2 : Int) ^ attempt) else 0

/-- One second in `time.Duration` units (nanoseconds). -/
def second : Int := 1000000000

/-! ## Backoff calculator (client.calculateBackoff) -/

/-- The exponential-backoff path of `calculateBackoff` (lines 273-291),
reached when no usable Retry-After hint is present. -/
def backoffFallback (initialBackoff : Int) (attempt : Nat) (statusCode : Int) : Int :=
  let baseBackoff := if initialBackoff = 0 then second else initialBackoff
  let baseBackoff := if statusCode = 429 then 5 * second else baseBackoff
  let backoff := wrap64 (baseBackoff * goShl1 attempt)
  if 30 * second < backoff then 30 * second else backoff

/-- `Client.calculateBackoff(attempt, statusCode, retryAfter)` with the
client's `InitialBackoff` passed explicitly.  All duration arithmetic is
int64 and wraps. -/
def calculateBackoff (initialBackoff : Int) (attempt : Nat) (statusCode : Int)
    (retryAfter : String) : Int :=
  let hinted : Option Int :=
    if statusCode = 429 ∧ retryAfter ≠ "" then
      match goAtoi retryAfter with
      | some seconds =>
        if 0 < seconds then
          let backoff := wrap64 (seconds * second)
          some (if 30 * second < backoff then 30 * second else backoff)
        else none
      | none => none
    else none
  match hinted with
  | some b => b
  | none => backoffFallback initialBackoff attempt statusCode

/-- The base unit the fallback path of `calculateBackoff` ends up using. -/
def effBase (initialBackoff : Int) (statusCode : Int) : Int :=
  if statusCode = 429 then 5 * second
  else if initialBackoff = 0 then second else initialBackoff

/-! ## Request executor (client.isRetryableError, client.doRequestWithRetry)

The HTTP transport is abstracted as a function from the attempt index to
the `(resp, err)` pair produced by `c.HTTPClient.Do`.  A nil error comes
with a non-nil response (`ok`); a non-nil error may, in unusual redirect
cases, still carry a response (`fail e (some r)`), and normally carries
none (`fail e none`).  The context is never cancelled in this model: the
claims settled here do not involve cancellation. -/

structure GoResp where
  statusCode : Int
  retryAfter : String
  body : String
deriving DecidableEq

inductive TransportResult where
  | ok (resp : GoResp)
  | fail (e : GoError) (resp : Option GoResp)

/-- `client.isRetryableError(err, statusCode)`. -/
def isRetryableError (err : Option GoError) (statusCode : Int) : Bool :=
  match err with
  | none => false
  | some e =>
    if IsRetryableError e then true
    else
      let errStr := renderError e
      if strContains errStr "connection refused" || strContains errStr "connection reset" ||
          strContains errStr "timeout" || strContains errStr "temporary failure" ||
          strContains errStr "EOF" then true
      else if statusCode = 429 then true
      else if 500 ≤ statusCode ∧ statusCode < 600 then true
      else false

/-- Substitution of `DefaultMaxRetries` (3) for a zero `MaxRetries`, as at
the top of `doRequestWithRetry`. -/
def effMaxRetries (maxRetriesCfg : Int) : Int :=
  if maxRetriesCfg = 0 then 3 else maxRetriesCfg

/-- The body of the `for attempt := 0; attempt <= maxRetries; attempt++`
loop of `doRequestWithRetry`.  `fuel` counts the loop iterations still
allowed by the loop condition (`maxR + 1 - attempt`); exhausting it is
exactly the loop condition failing.  Returns the `(resp, err)` pair Go
returns, the number of transport calls made, and the list of backoff
durations slept. -/
def retryLoop (transport : Nat → TransportResult) (initialBackoff maxR : Int) :
    Nat → Nat → Option GoError → Int → String → List Int →
    (Option GoResp × Option GoError) × Nat × List Int
  | 0, attempt, lastErr, lastStatus, _lastRA, sleeps =>
    -- all retries exhausted
    (match lastErr with
     | some e =>
       (none, some (.networkError ("request failed after " ++ toString maxR ++ " retries") (some e)))
     | none =>
       (none, some (.serverError ("request failed after " ++ toString maxR ++ " retries") lastStatus)),
     attempt, sleeps)
  | fuel + 1, attempt, _lastErr, lastStatus, lastRA, sleeps =>
    match transport attempt with
    | .ok resp =>
      if resp.statusCode < 400 then ((some resp, none), attempt + 1, sleeps)
      else
        -- lastErr := nil; lastStatusCode, lastRetryAfter from resp
        if ¬ isRetryableError none resp.statusCode then
          ((some resp, none), attempt + 1, sleeps)
        else if (attempt : Int) < maxR then
          retryLoop transport initialBackoff maxR fuel (attempt + 1) none resp.statusCode
            resp.retryAfter
            (sleeps ++ [calculateBackoff initialBackoff attempt resp.statusCode resp.retryAfter])
        else
          retryLoop transport initialBackoff maxR fuel (attempt + 1) none resp.statusCode
            resp.retryAfter sleeps
    | .fail e oresp =>
      let lastStatus' := match oresp with | some r => r.statusCode | none => lastStatus
      let lastRA' := match oresp with | some r => r.retryAfter | none => lastRA
      if ¬ isRetryableError (some e) lastStatus' then
        ((oresp, some e), attempt + 1, sleeps)
      else if (attempt : Int) < maxR then
        retryLoop transport initialBackoff maxR fuel (attempt + 1) (some e) lastStatus' lastRA'
          (sleeps ++ [calculateBackoff initialBackoff attempt lastStatus' lastRA'])
      else
        retryLoop transport initialBackoff maxR fuel (attempt + 1) (some e) lastStatus' lastRA'
          sleeps

/-- `Client.doRequestWithRetry` with the client's configuration passed
explicitly.  Returns the `(resp, err)` pair, the number of HTTP attempts
issued, and the backoffs slept. -/
def doRequestWithRetry (maxRetriesCfg initialBackoff : Int)
    (transport : Nat → TransportResult) :
    (Option GoResp × Option GoError) × Nat × List Int :=
  let maxR := effMaxRetries maxRetriesCfg
  retryLoop transport initialBackoff maxR (maxR + 1).toNat 0 none 0 "" []

/-! ## Encryption module (pkg/crypto/crypto.go)

Byte strings are `List Nat` with entries below 256.  `[]byte(s)` in Go is
the UTF-8 encoding of the string. -/

/-- UTF-8 encoding of one scalar value.  Characters are valid Unicode
scalar values, so every produced byte is below 256. -/
def utf8Char (c : Char) : List Nat :=
  let n := c.toNat
  if n < 128 then [n]
  else if n < 2048 then [192 + n / 64, 128 + n % 64]
  else if n < 65536 then [224 + n / 4096, 128 + (n / 64) % 64, 128 + n % 64]
  else [240 + n / 262144, 128 + (n / 4096) % 64, 128 + (n / 64) % 64, 128 + n % 64]

/-- `[]byte(s)`: UTF-8 bytes of a string. -/
def utf8Bytes (s : String) : List Nat :=
  s.data.flatMap utf8Char

/-! ### SHA-1 (crypto/sha1), used only for key derivation -/

/-- Left-rotation of a 32-bit word (valid for `x < 2^32`, `0 < n < 32`). -/
def rotl32 (n x : Nat) : Nat :=
  (x * 2 ^ n + x / 2 ^ (32 - n)) % 2 ^ 32

def sha1K (i : Nat) : Nat :=
  if i < 20 then 0x5A827999
  else if i < 40 then 0x6ED9EBA1
  else if i < 60 then 0x8F1BBCDC
  else 0xCA62C1D6

def sha1F (i b c d : Nat) : Nat :=
  if i < 20 then (b &&& c) ||| ((b ^^^ 0xFFFFFFFF) &&& d)
  else if i < 40 then b ^^^ c ^^^ d
  else if i < 60 then (b &&& c) ||| (b &&& d) ||| (c &&& d)
  else b ^^^ c ^^^ d

/-- Big-endian 32-bit words from bytes (input length a multiple of 4). -/
def wordsOfBytesBE : List Nat → List Nat
  | b0 :: b1 :: b2 :: b3 :: rest =>
    (b0 * 2 ^ 24 + b1 * 2 ^ 16 + b2 * 2 ^ 8 + b3) :: wordsOfBytesBE rest
  | _ => []

/-- Message-schedule expansion; `recentRev` holds the words produced so
far, newest first.  Runs `fuel` more steps and returns the whole schedule,
newest first. -/
def sha1Expand : Nat → List Nat → List Nat
  | 0, recentRev => recentRev
  | fuel + 1, recentRev =>
    sha1Expand fuel
      (rotl32 1 ((recentRev.getD 2 0) ^^^ (recentRev.getD 7 0) ^^^
        (recentRev.getD 13 0) ^^^ (recentRev.getD 15 0)) :: recentRev)

/-- The 80 compression rounds; the word list drives the recursion. -/
def sha1Rounds : Nat → List Nat → Nat × Nat × Nat × Nat × Nat → Nat × Nat × Nat × Nat × Nat
  | _, [], st => st
  | i, wi :: rest, (a, b, c, d, e) =>
    let temp := (rotl32 5 a + sha1F i b c d + e + sha1K i + wi) % 2 ^ 32
    sha1Rounds (i + 1) rest (temp, a, rotl32 30 b, c, d)

structure Sha1State where
  h0 : Nat
  h1 : Nat
  h2 : Nat
  h3 : Nat
  h4 : Nat

def sha1Init : Sha1State :=
  ⟨0x67452301, 0xEFCDAB89, 0x98BADCFE, 0x10325476, 0xC3D2E1F0⟩

def sha1Block (st : Sha1State) (chunk : List Nat) : Sha1State :=
  let w16 := wordsOfBytesBE chunk
  let w := (sha1Expand 64 w16.reverse).reverse
  let r := sha1Rounds 0 w (st.h0, st.h1, st.h2, st.h3, st.h4)
  ⟨(st.h0 + r.1) % 2 ^ 32, (st.h1 + r.2.1) % 2 ^ 32, (st.h2 + r.2.2.1) % 2 ^ 32,
    (st.h3 + r.2.2.2.1) % 2 ^ 32, (st.h4 + r.2.2.2.2) % 2 ^ 32⟩

/-- Split into chunks of `n` bytes; the fuel argument (instantiated with
the list length) makes the recursion structural so that it reduces. -/
def chunksBy (n : Nat) : Nat → List Nat → List (List Nat)
  | 0, _ => []
  | _, [] => []
  | fuel + 1, x :: xs => ((x :: xs).take n) :: chunksBy n fuel ((x :: xs).drop n)

/-- Split into 64-byte chunks. -/
def chunks64 (l : List Nat) : List (List Nat) :=
  chunksBy 64 l.length l

/-- Big-endian bytes of a 64-bit length field. -/
def bytesOfWord64BE (n : Nat) : List Nat :=
  [n / 2 ^ 56 % 256, n / 2 ^ 48 % 256, n / 2 ^ 40 % 256, n / 2 ^ 32 % 256,
   n / 2 ^ 24 % 256, n / 2 ^ 16 % 256, n / 2 ^ 8 % 256, n % 256]

/-- Big-endian bytes of a 32-bit word. -/
def bytesOfWord32BE (n : Nat) : List Nat :=
  [n / 2 ^ 24 % 256, n / 2 ^ 16 % 256, n / 2 ^ 8 % 256, n % 256]

/-- Merkle–Damgård padding for SHA-1. -/
def sha1Pad (msg : List Nat) : List Nat :=
  msg ++ 128 :: List.replicate ((64 - (msg.length + 9) % 64) % 64) 0 ++
    bytesOfWord64BE (8 * msg.length % 2 ^ 64)

/-- `sha1.Sum`: the 20-byte digest. -/
def sha1Digest (msg : List Nat) : List Nat :=
  let fin := (chunks64 (sha1Pad msg)).foldl sha1Block sha1Init
  bytesOfWord32BE fin.h0 ++ bytesOfWord32BE fin.h1 ++ bytesOfWord32BE fin.h2 ++
    bytesOfWord32BE fin.h3 ++ bytesOfWord32BE fin.h4

/-! ### Hexadecimal encoding/decoding (encoding/hex) -/

/-- Lowercase hex digit for `n < 16`. -/
def hexDigitChar (n : Nat) : Char :=
  if n < 10 then Char.ofNat (48 + n) else Char.ofNat (87 + n)

/-- Two hex digits of one byte. -/
def hexByte (b : Nat) : List Char :=
  [hexDigitChar (b / 16), hexDigitChar (b % 16)]

/-- `hex.EncodeToString` (always lowercase). -/
def hexEncodeBytes (bs : List Nat) : String :=
  ⟨bs.flatMap hexByte⟩

/-- Value of one hex digit, accepting both cases as `encoding/hex` does. -/
def decodeHexChar (c : Char) : Option Nat :=
  if '0' ≤ c ∧ c ≤ '9' then some (c.toNat - 48)
  else if 'a' ≤ c ∧ c ≤ 'f' then some (c.toNat - 87)
  else if 'A' ≤ c ∧ c ≤ 'F' then some (c.toNat - 55)
  else none

def hexDecodeList : List Char → Except String (List Nat)
  | [] => .ok []
  | [_] => .error "encoding/hex: odd length hex string"
  | c1 :: c2 :: rest =>
    match decodeHexChar c1, decodeHexChar c2, hexDecodeList rest with
    | some d1, some d2, .ok bs => .ok ((16 * d1 + d2) :: bs)
    | _, _, _ => .error "encoding/hex: invalid byte"

/-- `hex.DecodeString`. -/
def hexDecode (s : String) : Except String (List Nat) :=
  hexDecodeList s.data

/-- ASCII lowering of one character, the identity on everything Go's
`strings.ToLower` sees here (lowercase hex digits). -/
def lowerChar (c : Char) : Char :=
  if 'A' ≤ c ∧ c ≤ 'Z' then Char.ofNat (c.toNat + 32) else c

/-- `strings.ToLower` on the ASCII strings involved. -/
def goToLower (s : String) : String :=
  ⟨s.data.map lowerChar⟩

/-- Go string slicing `s[:n]` on an ASCII string. -/
def strTake (s : String) (n : Nat) : String :=
  ⟨s.data.take n⟩

/-! ### Key derivation, padding, AES-128-CBC, custom Base64 -/

/-- `crypto.DeriveEncryptionKey`: SHA-1 the passphrase, hex-encode,
lowercase, truncate to 32 hex characters, hex-decode back to 16 bytes. -/
def DeriveEncryptionKey (password : String) : Except String (List Nat) :=
  let hash := sha1Digest (utf8Bytes password)
  let keyHex := strTake (goToLower (hexEncodeBytes hash)) 32
  hexDecode keyHex

/-- `crypto.pkcs7Pad` (the `byte(padLength)` conversion truncates mod 256;
for block size 16 the pad length is between 1 and 16, so it is the
identity). -/
def pkcs7Pad (data : List Nat) (blockSize : Nat) : List Nat :=
  let padLength := blockSize - data.length % blockSize
  data ++ List.replicate padLength (padLength % 256)

/-- The AES forward S-box. -/
def sbox : List Nat :=
  [0x63, 0x7c, 0x77, 0x7b, 0xf2, 0x6b, 0x6f, 0xc5, 0x30, 0x01, 0x67, 0x2b, 0xfe, 0xd7, 0xab, 0x76,
   0xca, 0x82, 0xc9, 0x7d, 0xfa, 0x59, 0x47, 0xf0, 0xad, 0xd4, 0xa2, 0xaf, 0x9c, 0xa4, 0x72, 0xc0,
   0xb7, 0xfd, 0x93, 0x26, 0x36, 0x3f, 0xf7, 0xcc, 0x34, 0xa5, 0xe5, 0xf1, 0x71, 0xd8, 0x31, 0x15,
   0x04, 0xc7, 0x23, 0xc3, 0x18, 0x96, 0x05, 0x9a, 0x07, 0x12, 0x80, 0xe2, 0xeb, 0x27, 0xb2, 0x75,
   0x09, 0x83, 0x2c, 0x1a, 0x1b, 0x6e, 0x5a, 0xa0, 0x52, 0x3b, 0xd6, 0xb3, 0x29, 0xe3, 0x2f, 0x84,
   0x53, 0xd1, 0x00, 0xed, 0x20, 0xfc, 0xb1, 0x5b, 0x6a, 0xcb, 0xbe, 0x39, 0x4a, 0x4c, 0x58, 0xcf,
   0xd0, 0xef, 0xaa, 0xfb, 0x43, 0x4d, 0x33, 0x85, 0x45, 0xf9, 0x02, 0x7f, 0x50, 0x3c, 0x9f, 0xa8,
   0x51, 0xa3, 0x40, 0x8f, 0x92, 0x9d, 0x38, 0xf5, 0xbc, 0xb6, 0xda, 0x21, 0x10, 0xff, 0xf3, 0xd2,
   0xcd, 0x0c, 0x13, 0xec, 0x5f, 0x97, 0x44, 0x17, 0xc4, 0xa7, 0x7e, 0x3d, 0x64, 0x5d, 0x19, 0x73,
   0x60, 0x81, 0x4f, 0xdc, 0x22, 0x2a, 0x90, 0x88, 0x46, 0xee, 0xb8, 0x14, 0xde, 0x5e, 0x0b, 0xdb,
   0xe0, 0x32, 0x3a, 0x0a, 0x49, 0x06, 0x24, 0x5c, 0xc2, 0xd3, 0xac, 0x62, 0x91, 0x95, 0xe4, 0x79,
   0xe7, 0xc8, 0x37, 0x6d, 0x8d, 0xd5, 0x4e, 0xa9, 0x6c, 0x56, 0xf4, 0xea, 0x65, 0x7a, 0xae, 0x08,
   0xba, 0x78, 0x25, 0x2e, 0x1c, 0xa6, 0xb4, 0xc6, 0xe8, 0xdd, 0x74, 0x1f, 0x4b, 0xbd, 0x8b, 0x8a,
   0x70, 0x3e, 0xb5, 0x66, 0x48, 0x03, 0xf6, 0x0e, 0x61, 0x35, 0x57, 0xb9, 0x86, 0xc1, 0x1d, 0x9e,
   0xe1, 0xf8, 0x98, 0x11, 0x69, 0xd9, 0x8e, 0x94, 0x9b, 0x1e, 0x87, 0xe9, 0xce, 0x55, 0x28, 0xdf,
   0x8c, 0xa1, 0x89, 0x0d, 0xbf, 0xe6, 0x42, 0x68, 0x41, 0x99, 0x2d, 0x0f, 0xb0, 0x54, 0xbb, 0x16]

def sb (b : Nat) : Nat := sbox.getD b 0

/-- Multiplication by x in GF(2^8) modulo x^8+x^4+x^3+x+1. -/
def xtime (b : Nat) : Nat :=
  if b < 128 then 2 * b else (2 * b) ^^^ 0x11B

def gmul3 (b : Nat) : Nat := xtime b ^^^ b

def xorBytes (a b : List Nat) : List Nat :=
  List.zipWith (fun x y => x ^^^ y) a b

def aesRcon : List Nat := [1, 2, 4, 8, 16, 32, 64, 128, 0x1b, 0x36]

/-- One key-expansion step appending word `i` (given as `acc.length`). -/
def aesKeyExpandStep (acc : List (List Nat)) : List (List Nat) :=
  let i := acc.length
  let prev := acc.getD (i - 1) []
  let w4 := acc.getD (i - 4) []
  let t :=
    if i % 4 = 0 then
      let rot := prev.drop 1 ++ prev.take 1
      let sub := rot.map sb
      match sub with
      | s0 :: srest => (s0 ^^^ aesRcon.getD (i / 4 - 1) 0) :: srest
      | [] => []
    else prev
  acc ++ [xorBytes w4 t]

def iterate' (f : α → α) : Nat → α → α
  | 0, a => a
  | n + 1, a => iterate' f n (f a)

/-- AES-128 key schedule: 44 four-byte words. -/
def aesKeySchedule (key : List Nat) : List (List Nat) :=
  iterate' aesKeyExpandStep 40
    [key.take 4, (key.drop 4).take 4, (key.drop 8).take 4, (key.drop 12).take 4]

/-- Flat 16-byte round key `r` (bytes in the column-major state order). -/
def aesRoundKey (w : List (List Nat)) (r : Nat) : List Nat :=
  w.getD (4 * r) [] ++ w.getD (4 * r + 1) [] ++ w.getD (4 * r + 2) [] ++ w.getD (4 * r + 3) []

/-- ShiftRows on the flat column-major block. -/
def shiftRows (block : List Nat) : List Nat :=
  [0, 5, 10, 15, 4, 9, 14, 3, 8, 13, 2, 7, 12, 1, 6, 11].map (fun i => block.getD i 0)

def mixColumn : List Nat → List Nat
  | [a, b, c, d] =>
    [xtime a ^^^ gmul3 b ^^^ c ^^^ d,
     a ^^^ xtime b ^^^ gmul3 c ^^^ d,
     a ^^^ b ^^^ xtime c ^^^ gmul3 d,
     gmul3 a ^^^ b ^^^ c ^^^ xtime d]
  | l => l

def chunksOf4 : List Nat → List (List Nat)
  | a :: b :: c :: d :: rest => [a, b, c, d] :: chunksOf4 rest
  | _ => []

def mixColumns (block : List Nat) : List Nat :=
  (chunksOf4 block).flatMap mixColumn

/-- One middle round (rounds 1..9). -/
def aesRound (w : List (List Nat)) (block : List Nat) (r : Nat) : List Nat :=
  xorBytes (mixColumns (shiftRows (block.map sb))) (aesRoundKey w r)

/-- AES-128 encryption of one 16-byte block. -/
def aesEncryptBlock (key block : List Nat) : List Nat :=
  let w := aesKeySchedule key
  let s0 := xorBytes block (aesRoundKey w 0)
  let s9 := (List.range 9).foldl (fun s r => aesRound w s (r + 1)) s0
  xorBytes (shiftRows (s9.map sb)) (aesRoundKey w 10)

/-- CBC-mode chaining of `cipher.NewCBCEncrypter(...).CryptBlocks`. -/
def cbcChain (key : List Nat) : List Nat → List (List Nat) → List Nat
  | _, [] => []
  | prev, blk :: rest =>
    let c := aesEncryptBlock key (xorBytes blk prev)
    c ++ cbcChain key c rest

/-- Split into 16-byte blocks. -/
def blocks16 (l : List Nat) : List (List Nat) :=
  chunksBy 16 l.length l

def cbcEncrypt (key iv data : List Nat) : List Nat :=
  cbcChain key iv (blocks16 data)

/-- Standard Base64 alphabet. -/
def b64Char (n : Nat) : Char :=
  "ABCDEFGHIJKLMNOPQRSTUVWXYZabcdefghijklmnopqrstuvwxyz0123456789+/".data.getD n 'A'

/-- `base64.StdEncoding.EncodeToString`. -/
def b64EncodeList : List Nat → List Char
  | a :: b :: c :: rest =>
    let n := a * 65536 + b * 256 + c
    b64Char (n / 262144) :: b64Char (n / 4096 % 64) :: b64Char (n / 64 % 64) ::
      b64Char (n % 64) :: b64EncodeList rest
  | [a, b] =>
    let n := a * 65536 + b * 256
    [b64Char (n / 262144), b64Char (n / 4096 % 64), b64Char (n / 64 % 64), '=']
  | [a] =>
    let n := a * 65536
    [b64Char (n / 262144), b64Char (n / 4096 % 64), '=', '=']
  | [] => []

/-- `crypto.CustomBase64Encode`: standard Base64 then the character
substitutions `+`→`-`, `/`→`.`, `=`→`_` (ReplaceAll on distinct single
characters is a per-character map). -/
def CustomBase64Encode (data : List Nat) : String :=
  ⟨(b64EncodeList data).map (fun ch =>
    if ch = '+' then '-' else if ch = '/' then '.' else if ch = '=' then '_' else ch)⟩

/-- `crypto.EncryptMessage(plaintext, password, iv)`.  `aes.NewCipher`
rejects keys that are not 16/24/32 bytes; the derived key is always 16
bytes, making AES-128 the cipher in use. -/
def EncryptMessage (plaintext password : String) (iv : List Nat) : Except String String :=
  match DeriveEncryptionKey password with
  | .error e => .error e
  | .ok key =>
    if key.length = 16 then
      .ok (CustomBase64Encode (cbcEncrypt key iv (pkcs7Pad (utf8Bytes plaintext) 16)))
    else .error "crypto/aes: invalid key size"

/-! ## Notification client (Client.Send)

`json.Unmarshal` of the error envelope and of the success envelope are
external decoders; their outcomes are passed in as oracles.  Everything
else in `Send` (lines 377-521 of client.go) is transcribed. -/

/-- The nested `error` object of the API error envelope
(`ErrorDetails`). -/
structure ErrorDetails where
  etype : String
  code : String
  message : String
  param : String
deriving DecidableEq

/-- The parsed success envelope, reduced to the fields no claim touches
individually. -/
structure SendBody where
  status : String
  message : String
deriving DecidableEq

/-- `retryAfter, _ = strconv.Atoi(hdr)` guarded by `hdr != ""`
(client.go 477-480 and 498-501). -/
def looseRetryAfter (hdr : String) : Int :=
  if hdr = "" then 0 else goAtoiLoose hdr

/-- The error-classification block of `Client.Send` for `resp.StatusCode
>= 400` (client.go 466-509).  `parsed` is the `json.Unmarshal` outcome for
the nested error envelope (the code also falls back when the parsed
message is empty). -/
def classifyHTTPError (statusCode : Int) (parsed : Option ErrorDetails)
    (body retryAfterHdr : String) : GoError :=
  let typed : Option GoError :=
    match parsed with
    | some d =>
      if d.message ≠ "" then
        some
          (if statusCode = 400 ∨ statusCode = 404 then
            .validationError d.message d.param d.code 400
          else if statusCode = 401 ∨ statusCode = 403 then
            .authenticationError d.message statusCode
          else if statusCode = 429 then
            .rateLimitError d.message (looseRetryAfter retryAfterHdr)
          else if 500 ≤ statusCode then
            .serverError d.message statusCode
          else
            .validationError d.message d.param d.code 400)
      else none
    | none => none
  match typed with
  | some e => e
  | none =>
    if statusCode = 400 ∨ statusCode = 404 then
      .validationError ("validation error: " ++ body) "" "" 400
    else if statusCode = 401 ∨ statusCode = 403 then
      .authenticationError ("authentication error: " ++ body) statusCode
    else if statusCode = 429 then
      .rateLimitError ("rate limit exceeded: " ++ body) (looseRetryAfter retryAfterHdr)
    else if 500 ≤ statusCode then
      .serverError ("server error: " ++ body) statusCode
    else
      .validationError ("API error (" ++ toString statusCode ++ "): " ++ body) "" "" 400

/-- The response-handling tail of `Client.Send`: classify error statuses,
otherwise parse the success envelope (`parsedOk` is the `json.Unmarshal`
outcome, `.error m` carrying the decoder's message). -/
def handleResponse (statusCode : Int) (parsed : Option ErrorDetails)
    (parsedOk : Except String SendBody) (body retryAfterHdr : String) :
    Except GoError SendBody :=
  if 400 ≤ statusCode then
    .error (classifyHTTPError statusCode parsed body retryAfterHdr)
  else
    match parsedOk with
    | .ok r => .ok r
    | .error m => .error (.networkError "failed to parse response" (some (.plain m)))

/-- `client.SendOptions`. -/
structure SendOptionsM where
  Title : String
  Message : String
  Typ : String
  Tags : List String
  ImageURL : String
  ActionURL : String
  IV : String
  EncryptionPassword : String

/-- The client configuration fields `Send` reads. -/
structure ClientModel where
  Token : String
  MaxRetries : Int
  InitialBackoff : Int

/-- `Client.Send`, with the external collaborators passed as oracles:
`tagNorm` is `validation.NormalizeAndValidateTags`, `ivGen` is
`crypto.GenerateIV` (random), `parseErrEnvelope`/`parseSuccess` are the
two `json.Unmarshal` calls.  `json.Marshal` of the request struct and
`http.NewRequestWithContext` with a constant method cannot fail and build
state the transport abstracts over.  Returns the result and the number of
transport calls made. -/
def sendPipeline (c : ClientModel) (opts : SendOptionsM)
    (tagNorm : List String → Except String (List String))
    (ivGen : Except GoError (List Nat × String))
    (transport : Nat → TransportResult)
    (parseErrEnvelope : String → Option ErrorDetails)
    (parseSuccess : String → Except String SendBody) :
    Except GoError SendBody × Nat :=
  if opts.Title = "" then
    (.error (.validationError "title is required" "" "" 400), 0)
  else if c.Token = "" then
    (.error (.authenticationError "token is required" 401), 0)
  else
    let tagsRes : Except GoError (List String) :=
      if 0 < opts.Tags.length then
        match tagNorm opts.Tags with
        | .error m =>
          .error (.validationError ("tag validation failed: " ++ m) "tags" "invalid_tags" 400)
        | .ok ts => .ok ts
      else .ok opts.Tags
    match tagsRes with
    | .error e => (.error e, 0)
    | .ok _normalizedTags =>
      let encRes : Except GoError (String × String) :=
        if opts.EncryptionPassword ≠ "" then
          if opts.Message ≠ "" then
            match ivGen with
            | .error e => .error (.networkError "failed to generate IV" (some e))
            | .ok (ivBytes, ivHex) =>
              match EncryptMessage opts.Message opts.EncryptionPassword ivBytes with
              | .error m => .error (.networkError "failed to encrypt message" (some (.plain m)))
              | .ok ct => .ok (ct, ivHex)
          else .ok (opts.Message, "")
        else .ok (opts.Message, "")
      match encRes with
      | .error e => (.error e, 0)
      | .ok _msgAndIV =>
        let r := doRequestWithRetry c.MaxRetries c.InitialBackoff transport
        match r.1.2 with
        | some e => (.error e, r.2.1)
        | none =>
          match r.1.1 with
          | some resp =>
            (handleResponse resp.statusCode (parseErrEnvelope resp.body)
              (parseSuccess resp.body) resp.body resp.retryAfter, r.2.1)
          | none => (.error (.networkError "unreachable" none), r.2.1)

/-- The derivation the unconventional hex round trip is claimed to be
extensionally equal to: plain truncation of the SHA-1 digest to its first
16 bytes. -/
def deriveKeySpec (password : String) : List Nat :=
  (sha1Digest (utf8Bytes password)).take 16

/-! ## Theorems -/

theorem wrap64_eq_self (x : Int) (h0 : 0 ≤ x) (h1 : x < 2 ^ 63) : wrap64 x = x := by
  have hm : x % (2 ^ 64 : Int) = x := Int.emod_eq_of_lt h0 (by omega)
  simp only [wrap64, hm]
  omega

theorem goShl1_small (k : Nat) (h : k ≤ 62) : goShl1 k = 2 ^ k := by
  have h2 : (2 : Int) ^ k < 2 ^ 63 := pow_lt_pow_right₀ one_lt_two (by omega)
  simp only [goShl1, if_pos (by omega : k < 64)]
  exact wrap64_eq_self _ (by positivity) h2

theorem calculateBackoff_no_hint (ib : Int) (a : Nat) (s : Int) :
    calculateBackoff ib a s "" = backoffFallback ib a s := by
  simp [calculateBackoff]

theorem backoffFallback_effBase (ib : Int) (a : Nat) (s : Int) :
    backoffFallback ib a s =
      if 30 * second < wrap64 (effBase ib s * goShl1 a) then 30 * second
      else wrap64 (effBase ib s * goShl1 a) := by
  by_cases h : s = 429
  · simp [backoffFallback, effBase, h]
  · simp [backoffFallback, effBase, h]

/-- Claim C5: for every value of each of the five error taxonomy variants,
however constructed, `IsRetryable` is false for ValidationError and
AuthenticationError and true for RateLimitError, ServerError and
NetworkError. -/
theorem taxonomy_retryability_partition :
    (∀ (m p c : String) (sc : Int), IsRetryableError (.validationError m p c sc) = false)
    ∧ (∀ (m : String) (sc : Int), IsRetryableError (.authenticationError m sc) = false)
    ∧ (∀ (m : String) (ra : Int), IsRetryableError (.rateLimitError m ra) = true)
    ∧ (∀ (m : String) (sc : Int), IsRetryableError (.serverError m sc) = true)
    ∧ (∀ (m : String) (cause : Option GoError), IsRetryableError (.networkError m cause) = true) :=
  ⟨fun _ _ _ _ => rfl, fun _ _ => rfl, fun _ _ => rfl, fun _ _ => rfl, fun _ _ => rfl⟩

/-- Claim C9: `pkcs7Pad(data, 16)` appends exactly N bytes of value N with
N = 16 − (len(data) mod 16); the result length is a positive multiple of
16, and an exact-multiple input receives a full extra block of 16 bytes of
padding. -/
theorem pkcs7Pad_appends_n_bytes_of_n (data : List Nat) :
    pkcs7Pad data 16
      = data ++ List.replicate (16 - data.length % 16) (16 - data.length % 16)
    ∧ (pkcs7Pad data 16).length % 16 = 0
    ∧ 0 < (pkcs7Pad data 16).length
    ∧ (data.length % 16 = 0 → pkcs7Pad data 16 = data ++ List.replicate 16 16) := by
  have hm : data.length % 16 < 16 := Nat.mod_lt _ (by norm_num)
  have hN : (16 - data.length % 16) % 256 = 16 - data.length % 16 :=
    Nat.mod_eq_of_lt (by omega)
  refine ⟨by simp [pkcs7Pad, hN], ?_, ?_, ?_⟩
  · simp only [pkcs7Pad, hN, List.length_append, List.length_replicate]
    omega
  · simp only [pkcs7Pad, hN, List.length_append, List.length_replicate]
    omega
  · intro h0
    simp [pkcs7Pad, hN, h0]

/-- Witness for C9 at a block-aligned input: 16 bytes receive a full extra
block of padding. -/
theorem pkcs7Pad_appends_n_bytes_of_n_witness :
    pkcs7Pad (List.replicate 16 7) 16 = List.replicate 16 7 ++ List.replicate 16 16 :=
  (pkcs7Pad_appends_n_bytes_of_n (List.replicate 16 7)).2.2.2 (by simp)

/-- Claim C1 (code bug evaluation): a transport returning an HTTP 500
response with a nil transport error is not retried: with `MaxRetries = 3`
the executor returns the 500 response with a nil error after exactly one
attempt and no backoff sleeps, because `isRetryableError` answers false
whenever the transport error is nil. -/
theorem server_error_response_not_retried :
    doRequestWithRetry 3 second (fun _ => .ok ⟨500, "", ""⟩)
      = ((some ⟨500, "", ""⟩, none), 1, [])
    ∧ isRetryableError none 500 = false := by
  exact ⟨rfl, rfl⟩

/-- Claim C2 (counterexample): with configured `MaxRetries = 0` and a
transport failing every attempt with a retryable error, 4 attempts are
made, not 1 — the zero value is replaced by `DefaultMaxRetries` (3). -/
theorem zero_max_retries_makes_four_attempts :
    (doRequestWithRetry 0 second (fun _ => .fail (.plain "timeout") none)).2.1 = 4
    ∧ (4 : Nat) ≠ 1 :=
  ⟨rfl, by decide⟩

/-- Claim C4 (counterexample): a parseable positive Retry-After hint of
10^10 seconds overflows the int64 nanosecond conversion, so the returned
backoff is negative instead of the claimed 30-second cap. -/
theorem backoff_hint_overflow :
    calculateBackoff second 0 429 "10000000000" < 0
    ∧ calculateBackoff second 0 429 "10000000000" ≠ 30 * second := by
  refine ⟨by decide, by decide⟩

/-- Claim C8 (counterexample): with the default 1-second base and status
500, the backoff is the capped 30 seconds at attempt 33 but the int64
product overflows at attempt 34, yielding a negative value: monotonicity
and constancy-after-cap fail there. -/
theorem backoff_overflow_breaks_monotonicity :
    calculateBackoff second 33 500 "" = 30 * second
    ∧ calculateBackoff second 34 500 "" < calculateBackoff second 33 500 "" := by
  refine ⟨by decide, by decide⟩

/-- Claim C4 (amended): for every attempt index and every parseable
positive Retry-After hint whose nanosecond value fits in int64, the
backoff is exactly the hint in seconds capped at 30 seconds (larger
parseable hints overflow int64 and come out negative — see the
counterexample); an unparsable or non-positive hint falls back to the
5-second rate-limit base, and the four concrete cases of the spec hold. -/
theorem backoff_rate_limit_hint :
    (∀ (ib : Int) (n : Nat) (hint : String) (s : Int),
      goAtoi hint = some s → 0 < s → s * second < 2 ^ 63 →
      calculateBackoff ib n 429 hint = min (s * second) (30 * second))
    ∧ (∀ (ib : Int) (n : Nat) (hint : String),
      goAtoi hint = none ∨ (∃ s, goAtoi hint = some s ∧ s ≤ 0) →
      calculateBackoff ib n 429 hint = calculateBackoff ib n 429 "")
    ∧ calculateBackoff second 0 429 "5" = 5 * second
    ∧ calculateBackoff second 0 429 "60" = 30 * second
    ∧ calculateBackoff second 0 429 "" = 5 * second
    ∧ calculateBackoff second 0 429 "invalid" = 5 * second := by
  refine ⟨?_, ?_, by decide, by decide, by decide, by decide⟩
  · intro ib n hint s hs hpos hfit
    have hne : hint ≠ "" := by
      rintro rfl
      rw [show goAtoi "" = none from rfl] at hs
      cases hs
    have hsec : 0 ≤ s * second := by
      have h2 : (0 : Int) ≤ second := by decide
      exact mul_nonneg (le_of_lt hpos) h2
    have hwrap : wrap64 (s * second) = s * second := wrap64_eq_self _ hsec hfit
    simp only [calculateBackoff, hne, hs, hpos, hwrap, ne_eq, not_false_eq_true,
      and_true, true_and, if_true, ite_true]
    rcases le_or_lt (s * second) (30 * second) with hle | hlt
    · rw [if_neg (not_lt.mpr hle), min_eq_left hle]
    · rw [if_pos hlt, min_eq_right (le_of_lt hlt)]
  · intro ib n hint h
    rw [calculateBackoff_no_hint]
    rcases h with h | ⟨s, hs, hle⟩
    · simp [calculateBackoff, h]
    · have hns : ¬ (0 : Int) < s := not_lt.mpr hle
      simp [calculateBackoff, hs, hns]

/-- Witness for C4 at a small hint ("7" seconds) and at an unparsable
hint ("oops"). -/
theorem backoff_rate_limit_hint_witness :
    calculateBackoff second 2 429 "7" = min (7 * second) (30 * second)
    ∧ calculateBackoff second 2 429 "oops" = calculateBackoff second 2 429 "" :=
  ⟨backoff_rate_limit_hint.1 second 2 "7" 7 rfl (by decide) (by decide),
   backoff_rate_limit_hint.2.1 second 2 "oops" (Or.inl rfl)⟩

/-- Claim C8 (amended): for a fixed status code with no rate-limit hint
and a non-negative configured base, the backoff is non-decreasing in the
attempt index, and once it reaches the 30-second cap it stays there, for
every attempt whose base·2^(attempt) product still fits in int64 (with the
default 1-second base that is attempts up to 33); 64-bit overflow breaks
the property at attempt 34 — see the counterexample. -/
theorem backoff_monotone_and_capped (ib s : Int) (n : Nat)
    (hib : 0 ≤ ib)
    (hov : effBase ib s * 2 ^ (n + 1) < 2 ^ 63) :
    calculateBackoff ib n s "" ≤ calculateBackoff ib (n + 1) s ""
    ∧ (calculateBackoff ib n s "" = 30 * second →
       calculateBackoff ib (n + 1) s "" = 30 * second) := by
  have hbase : 1 ≤ effBase ib s := by
    simp only [effBase, second]
    split_ifs <;> omega
  have hn1 : n + 1 ≤ 62 := by
    by_contra hcon
    have h1 : (2 : Int) ^ 63 ≤ 2 ^ (n + 1) := pow_le_pow_right₀ one_le_two (by omega)
    have h2 : (2 : Int) ^ (n + 1) ≤ effBase ib s * 2 ^ (n + 1) :=
      le_mul_of_one_le_left (by positivity) hbase
    exact absurd hov (not_lt.mpr (h1.trans h2))
  have hval : ∀ k, k ≤ 62 → effBase ib s * 2 ^ k < 2 ^ 63 →
      calculateBackoff ib k s ""
        = if 30 * second < effBase ib s * 2 ^ k then 30 * second
          else effBase ib s * 2 ^ k := by
    intro k hk hlt
    rw [calculateBackoff_no_hint, backoffFallback_effBase, goShl1_small k hk,
      wrap64_eq_self _ (mul_nonneg (by omega) (by positivity)) hlt]
  have hovn : effBase ib s * 2 ^ n < 2 ^ 63 := by
    have h2 : effBase ib s * 2 ^ n ≤ effBase ib s * 2 ^ (n + 1) :=
      mul_le_mul_of_nonneg_left (pow_le_pow_right₀ one_le_two (by omega)) (by omega)
    exact lt_of_le_of_lt h2 hov
  have hdouble : effBase ib s * 2 ^ (n + 1) = 2 * (effBase ib s * 2 ^ n) := by
    rw [pow_succ]; ring
  rw [hval n (by omega) hovn, hval (n + 1) hn1 hov, hdouble]
  have hx0 : 0 ≤ effBase ib s * 2 ^ n := mul_nonneg (by omega) (by positivity)
  have hsec : (0 : Int) < second := by decide
  generalize hgen : effBase ib s * 2 ^ n = x at hx0 ⊢
  constructor
  · split_ifs <;> omega
  · intro hcap
    split_ifs at hcap ⊢ <;> omega

/-- Witness for C8's amended statement at status 500, attempts 3 → 4, with
the default 1-second base. -/
theorem backoff_monotone_and_capped_witness :
    calculateBackoff second 3 500 "" ≤ calculateBackoff second 4 500 ""
    ∧ (calculateBackoff second 3 500 "" = 30 * second →
       calculateBackoff second 4 500 "" = 30 * second) :=
  backoff_monotone_and_capped second 500 3 (by decide) (by decide)

theorem isRetryable_any_status (e : GoError) (s : Int)
    (h : isRetryableError (some e) 0 = true) : isRetryableError (some e) s = true := by
  simp only [isRetryableError] at h ⊢
  by_cases h1 : IsRetryableError e = true
  · simp [h1]
  · simp only [h1, if_false, Bool.if_false_left, Bool.not_eq_true'] at h ⊢
    by_cases h2 : (strContains (renderError e) "connection refused"
        || strContains (renderError e) "connection reset"
        || strContains (renderError e) "timeout"
        || strContains (renderError e) "temporary failure"
        || strContains (renderError e) "EOF") = true
    · simp [h2]
    · simp only [h2] at h
      norm_num at h

/-- One loop iteration of `retryLoop` on a response-less retryable
transport error: sleep (when below the retry budget) and recurse. -/
theorem retryLoop_fail_step (t : Nat → TransportResult) (ib maxR : Int)
    (fuel attempt : Nat) (lastErr : Option GoError) (lastStatus : Int)
    (lastRA : String) (sleeps : List Int) (e : GoError)
    (hte : t attempt = .fail e none)
    (hre : isRetryableError (some e) lastStatus = true) :
    retryLoop t ib maxR (fuel + 1) attempt lastErr lastStatus lastRA sleeps
      = if (attempt : Int) < maxR then
          retryLoop t ib maxR fuel (attempt + 1) (some e) lastStatus lastRA
            (sleeps ++ [calculateBackoff ib attempt lastStatus lastRA])
        else
          retryLoop t ib maxR fuel (attempt + 1) (some e) lastStatus lastRA sleeps := by
  simp only [retryLoop, hte, hre, not_true_eq_false, if_false]

theorem retryLoop_allFail (t : Nat → TransportResult) (ib maxR : Int)
    (ht : ∀ n, ∃ e, t n = .fail e none ∧ isRetryableError (some e) 0 = true) :
    ∀ fuel, 1 ≤ fuel → ∀ attempt lastErr lastStatus lastRA sleeps,
      ∃ e sl, retryLoop t ib maxR fuel attempt lastErr lastStatus lastRA sleeps
        = ((none, some (.networkError
            ("request failed after " ++ toString maxR ++ " retries") (some e))),
           attempt + fuel, sl) := by
  intro fuel
  induction fuel with
  | zero => omega
  | succ n ih =>
    intro _ attempt lastErr lastStatus lastRA sleeps
    obtain ⟨e, hte, hre⟩ := ht attempt
    have hre' := isRetryable_any_status e lastStatus hre
    rw [retryLoop_fail_step t ib maxR n attempt lastErr lastStatus lastRA sleeps e hte hre']
    cases n with
    | zero =>
      refine ⟨e, if (attempt : Int) < maxR then
        sleeps ++ [calculateBackoff ib attempt lastStatus lastRA] else sleeps, ?_⟩
      by_cases hlt : (attempt : Int) < maxR
      · simp [retryLoop, hlt]
      · simp [retryLoop, hlt]
    | succ k =>
      by_cases hlt : (attempt : Int) < maxR
      · obtain ⟨e', sl', heq⟩ := ih (by omega) (attempt + 1) (some e) lastStatus lastRA
          (sleeps ++ [calculateBackoff ib attempt lastStatus lastRA])
        refine ⟨e', sl', ?_⟩
        rw [if_pos hlt, heq]
        rw [show attempt + 1 + (k + 1) = attempt + (k + 1 + 1) by omega]
      · obtain ⟨e', sl', heq⟩ := ih (by omega) (attempt + 1) (some e) lastStatus lastRA sleeps
        refine ⟨e', sl', ?_⟩
        rw [if_neg hlt, heq]
        rw [show attempt + 1 + (k + 1) = attempt + (k + 1 + 1) by omega]

/-- Claim C2 (amended): given a transport failing every attempt with a
retryable error, `doRequestWithRetry` makes exactly `eff + 1` attempts and
returns a Network error whose message names `eff` as the retry count,
where `eff` is the configured `MaxRetries` unless that is zero, in which
case `DefaultMaxRetries = 3` is substituted — so a configured
`MaxRetries = 0` yields 4 attempts, never 1. -/
theorem executor_exhausts_retries (mr ib : Int) (t : Nat → TransportResult)
    (hmr : 0 ≤ mr)
    (ht : ∀ n, ∃ e, t n = .fail e none ∧ isRetryableError (some e) 0 = true) :
    ∃ e sl, doRequestWithRetry mr ib t
      = ((none, some (.networkError
          ("request failed after " ++ toString (effMaxRetries mr) ++ " retries") (some e))),
         (effMaxRetries mr).toNat + 1, sl) := by
  have heff : 1 ≤ effMaxRetries mr := by
    simp only [effMaxRetries]
    split_ifs <;> omega
  obtain ⟨e, sl, h⟩ := retryLoop_allFail t ib (effMaxRetries mr) ht
    (effMaxRetries mr + 1).toNat (by omega) 0 none 0 "" []
  refine ⟨e, sl, ?_⟩
  rw [doRequestWithRetry]
  rw [show (effMaxRetries mr).toNat + 1 = 0 + (effMaxRetries mr + 1).toNat by omega]
  exact h

/-- Witness for C2's amended statement with `MaxRetries = 1` and a
transport that always times out: 2 attempts. -/
theorem executor_exhausts_retries_witness :
    ∃ e sl, doRequestWithRetry 1 second (fun _ => .fail (.plain "timeout") none)
      = ((none, some (.networkError
          ("request failed after " ++ toString (effMaxRetries 1) ++ " retries") (some e))),
         (effMaxRetries 1).toNat + 1, sl) :=
  executor_exhausts_retries 1 second _ (by decide)
    (fun _ => ⟨.plain "timeout", rfl, by decide⟩)

/-- Claim C6: every HTTP status ≥ 400 reaching Send's response handling
yields exactly one classified error, never a success; with the nested
envelope absent or unparsable, classification falls back to the raw
status-code range with the raw body text carried in the message. -/
theorem send_error_status_classification (statusCode : Int)
    (parsed : Option ErrorDetails) (parsedOk : Except String SendBody)
    (body hdr : String) (h : 400 ≤ statusCode) :
    (∃ e, handleResponse statusCode parsed parsedOk body hdr = .error e)
    ∧ (parsed = none →
      ((statusCode = 400 ∨ statusCode = 404) →
        handleResponse statusCode parsed parsedOk body hdr
          = .error (.validationError ("validation error: " ++ body) "" "" 400))
      ∧ ((statusCode = 401 ∨ statusCode = 403) →
        handleResponse statusCode parsed parsedOk body hdr
          = .error (.authenticationError ("authentication error: " ++ body) statusCode))
      ∧ (statusCode = 429 →
        ∃ ra, handleResponse statusCode parsed parsedOk body hdr
          = .error (.rateLimitError ("rate limit exceeded: " ++ body) ra))
      ∧ (500 ≤ statusCode →
        handleResponse statusCode parsed parsedOk body hdr
          = .error (.serverError ("server error: " ++ body) statusCode))) := by
  constructor
  · exact ⟨classifyHTTPError statusCode parsed body hdr,
      by simp only [handleResponse, if_pos h]⟩
  · rintro rfl
    refine ⟨?_, ?_, ?_, ?_⟩
    · intro hs
      simp only [handleResponse, if_pos h]
      simp [classifyHTTPError, hs]
    · intro hs
      have h1 : ¬ (statusCode = 400 ∨ statusCode = 404) := by omega
      simp only [handleResponse, if_pos h]
      simp only [classifyHTTPError, h1, if_false]
      rcases hs with rfl | rfl <;> simp
    · rintro rfl
      refine ⟨looseRetryAfter hdr, ?_⟩
      simp only [handleResponse, if_pos h]
      simp [classifyHTTPError]
    · intro hs
      have h1 : ¬ (statusCode = 400 ∨ statusCode = 404) := by omega
      have h2 : ¬ (statusCode = 401 ∨ statusCode = 403) := by omega
      have h3 : ¬ statusCode = 429 := by omega
      simp only [handleResponse, if_pos h]
      simp [classifyHTTPError, h1, h2, h3, hs]

/-- Witness for C6: a 500 response with an unparsable envelope and body
"boom" is classified as a ServerError carrying the body text. -/
theorem send_error_status_classification_witness :
    handleResponse 500 none (.error "bad json") "boom" ""
      = .error (.serverError ("server error: " ++ "boom") 500) :=
  ((send_error_status_classification 500 none (.error "bad json") "boom" ""
    (by decide)).2 rfl).2.2.2 (by decide)

/-- Claim C7: an empty Title makes Send return the "title is required"
Validation error, and a non-empty Title with an empty client Token makes
it return the "token is required" Authentication error, in both cases with
zero transport invocations and never a Network classification. -/
theorem send_local_validation_short_circuit (c : ClientModel) (opts : SendOptionsM)
    (tagNorm : List String → Except String (List String))
    (ivGen : Except GoError (List Nat × String))
    (transport : Nat → TransportResult)
    (parseErrEnvelope : String → Option ErrorDetails)
    (parseSuccess : String → Except String SendBody) :
    (opts.Title = "" →
      sendPipeline c opts tagNorm ivGen transport parseErrEnvelope parseSuccess
        = (.error (.validationError "title is required" "" "" 400), 0))
    ∧ (opts.Title ≠ "" → c.Token = "" →
      sendPipeline c opts tagNorm ivGen transport parseErrEnvelope parseSuccess
        = (.error (.authenticationError "token is required" 401), 0)) := by
  constructor
  · intro h
    simp [sendPipeline, h]
  · intro h1 h2
    simp [sendPipeline, h1, h2]

/-- Witness for C7 at concrete options: empty title short-circuits to a
Validation error, and empty token (with a title) to an Authentication
error, both with zero transport calls. -/
theorem send_local_validation_short_circuit_witness :
    (sendPipeline ⟨"tok", 3, second⟩ ⟨"", "m", "", [], "", "", "", ""⟩
        (fun ts => .ok ts) (.ok ([], "")) (fun _ => .ok ⟨200, "", ""⟩)
        (fun _ => none) (fun _ => .error "x")
      = (.error (.validationError "title is required" "" "" 400), 0))
    ∧ (sendPipeline ⟨"", 3, second⟩ ⟨"t", "m", "", [], "", "", "", ""⟩
        (fun ts => .ok ts) (.ok ([], "")) (fun _ => .ok ⟨200, "", ""⟩)
        (fun _ => none) (fun _ => .error "x")
      = (.error (.authenticationError "token is required" 401), 0)) :=
  ⟨(send_local_validation_short_circuit ⟨"tok", 3, second⟩ ⟨"", "m", "", [], "", "", "", ""⟩
      (fun ts => .ok ts) (.ok ([], "")) (fun _ => .ok ⟨200, "", ""⟩)
      (fun _ => none) (fun _ => .error "x")).1 rfl,
   (send_local_validation_short_circuit ⟨"", 3, second⟩ ⟨"t", "m", "", [], "", "", "", ""⟩
      (fun ts => .ok ts) (.ok ([], "")) (fun _ => .ok ⟨200, "", ""⟩)
      (fun _ => none) (fun _ => .error "x")).2 (by decide) rfl⟩

set_option maxRecDepth 100000 in
/-- Claim C3: `EncryptMessage` is deterministic — equal (passphrase, IV,
plaintext) triples give byte-identical output — and on the fixed plaintext,
passphrase "test_password_123" and IV hex "0123456789abcdef0123456789abcdef"
it produces exactly the cross-implementation vector. -/
theorem encrypt_deterministic_and_vector :
    (∀ (pt1 pw1 : String) (iv1 : List Nat) (pt2 pw2 : String) (iv2 : List Nat),
      pt1 = pt2 → pw1 = pw2 → iv1 = iv2 →
      EncryptMessage pt1 pw1 iv1 = EncryptMessage pt2 pw2 iv2)
    ∧ EncryptMessage "This is a secret message that needs to be encrypted securely."
        "test_password_123"
        [0x01, 0x23, 0x45, 0x67, 0x89, 0xab, 0xcd, 0xef,
         0x01, 0x23, 0x45, 0x67, 0x89, 0xab, 0xcd, 0xef]
      = .ok "y2fzGqnZSgdMqkwYhAUEZi30VFBYvwcCmrQ6BmSliPpPGHXMdMRsLCtG-cfwhhxN4HSIk5Y3UMjM6XoBWPqiHw__" := by
  constructor
  · rintro pt1 pw1 iv1 pt2 pw2 iv2 rfl rfl rfl
    rfl
  · rfl

/-- Witness for C3's determinism conjunct at a concrete equal triple. -/
theorem encrypt_deterministic_and_vector_witness :
    EncryptMessage "msg" "pw" [0] = EncryptMessage "msg" "pw" [0] :=
  encrypt_deterministic_and_vector.1 "msg" "pw" [0] "msg" "pw" [0] rfl rfl rfl

theorem hexDigit_props : ∀ n, n < 16 →
    lowerChar (hexDigitChar n) = hexDigitChar n
    ∧ decodeHexChar (hexDigitChar n) = some n := by decide

theorem hexByte_map_lower (b : Nat) (h : b < 256) :
    (hexByte b).map lowerChar = hexByte b := by
  have h1 := (hexDigit_props (b / 16) (by omega)).1
  have h2 := (hexDigit_props (b % 16) (Nat.mod_lt _ (by norm_num))).1
  simp [hexByte, h1, h2]

theorem flatMap_hexByte_map_lower (bs : List Nat) (h : ∀ b ∈ bs, b < 256) :
    (bs.flatMap hexByte).map lowerChar = bs.flatMap hexByte := by
  induction bs with
  | nil => rfl
  | cons b tl ih =>
    simp only [List.flatMap_cons, List.map_append]
    rw [hexByte_map_lower b (h b (by simp)), ih (fun x hx => h x (by simp [hx]))]

theorem take_flatMap_hexByte (bs : List Nat) :
    ∀ k, (bs.flatMap hexByte).take (2 * k) = (bs.take k).flatMap hexByte := by
  induction bs with
  | nil => intro k; simp
  | cons b tl ih =>
    intro k
    cases k with
    | zero => simp
    | succ j =>
      simp only [List.flatMap_cons, List.take_succ_cons]
      rw [List.take_append_eq_append_take]
      have hlen : (hexByte b).length = 2 := rfl
      rw [List.take_of_length_le (by omega), hlen,
        show 2 * (j + 1) - 2 = 2 * j by omega, ih j]

theorem hexDecodeList_flatMap (bs : List Nat) (h : ∀ b ∈ bs, b < 256) :
    hexDecodeList (bs.flatMap hexByte) = .ok bs := by
  induction bs with
  | nil => rfl
  | cons b tl ih =>
    have hb : b < 256 := h b (by simp)
    have h1 := (hexDigit_props (b / 16) (by omega)).2
    have h2 := (hexDigit_props (b % 16) (Nat.mod_lt _ (by norm_num))).2
    have htl := ih (fun x hx => h x (by simp [hx]))
    simp only [List.flatMap_cons, hexByte, List.cons_append, List.nil_append]
    rw [hexDecodeList, h1, h2, htl]
    show Except.ok ((16 * (b / 16) + b % 16) :: tl) = Except.ok (b :: tl)
    rw [Nat.div_add_mod]

theorem bytesOfWord32BE_bound (w : Nat) : ∀ x ∈ bytesOfWord32BE w, x < 256 := by
  simp only [bytesOfWord32BE, List.mem_cons, List.not_mem_nil, or_false]
  rintro x (rfl | rfl | rfl | rfl) <;> omega

theorem sha1Digest_bound (m : List Nat) : ∀ b ∈ sha1Digest m, b < 256 := by
  intro b hb
  simp only [sha1Digest, List.mem_append] at hb
  rcases hb with ((hb | hb) | hb) | hb
  · rcases hb with hb | hb
    · exact bytesOfWord32BE_bound _ b hb
    · exact bytesOfWord32BE_bound _ b hb
  · exact bytesOfWord32BE_bound _ b hb
  · exact bytesOfWord32BE_bound _ b hb
  · exact bytesOfWord32BE_bound _ b hb

/-- Claim C10: for every passphrase, `DeriveEncryptionKey` succeeds and
returns exactly the first 16 raw bytes of the SHA-1 digest of the UTF-8
passphrase bytes — the hex-encode / truncate-to-32 / hex-decode round trip
is the identity on the first half of the digest, so the unconventional
derivation is extensionally equal to plain digest truncation
(`deriveKeySpec`). -/
theorem derive_key_equals_digest_truncation (password : String) :
    DeriveEncryptionKey password = .ok (deriveKeySpec password) := by
  have hbound : ∀ b ∈ sha1Digest (utf8Bytes password), b < 256 := sha1Digest_bound _
  simp only [DeriveEncryptionKey, deriveKeySpec, hexDecode, strTake, goToLower, hexEncodeBytes]
  rw [flatMap_hexByte_map_lower _ hbound]
  rw [show (32 : Nat) = 2 * 16 by norm_num, take_flatMap_hexByte]
  exact hexDecodeList_flatMap _ (fun b hb => hbound b (List.take_subset _ _ hb))
